import Mathlib

/-! Data-driven content renderer of the portfolio page (`script.js`).

A shallow embedding of the render helpers `renderHero`, `renderProjects`,
`renderExperience`, `renderEducation`, `renderSkills` and of the orchestrator
`hydrateSite`.

Modelling choices.

* The content document is typed after the data model: an optional field is an
  `Option` (`none` is a missing key, i.e. the value `undefined`), a scalar field
  is a string, a collection is a list.
* The page is the record of its named mount points (`getElementById`), each
  either missing (`none`, the lookup returns `null`) or an element.  The mount
  points are distinct elements, none nested in another.
* An element is its tag, its attributes in the order they were first set, and
  its child nodes.  The property `className` is the attribute `class`,
  `dataset.animate` is `data-animate`; `href`, `target` and `rel` are the
  attributes of the same name, holding the value as assigned.
* A statement that dereferences `null` throws a `TypeError`; the renderer then
  stops and leaves the page as mutated so far (`Outcome.threw`).
-/

namespace Portfolio

/-! ## DOM -/

/-- A DOM node: a text node or an element with attributes and children. -/
inductive Node where
  | text (data : String)
  | elem (tag : String) (attrs : List (String × String)) (children : List Node)

/-- An element under construction or a mount point of the page. -/
structure Element where
  tag : String
  attrs : List (String × String)
  children : List Node

/-- The element seen as a node of its parent. -/
def Element.toNode (e : Element) : Node := .elem e.tag e.attrs e.children

/-- The call `document.createElement(tag)`. -/
def createElement (tag : String) : Element := ⟨tag, [], []⟩

/-- Set attribute `k` to `v`: overwrite in place when present, else add last. -/
def setAttr : List (String × String) → String → String → List (String × String)
  | [], k, v => [(k, v)]
  | (k0, v0) :: rest, k, v => if k0 = k then (k, v) :: rest else (k0, v0) :: setAttr rest k v

/-- Assignment to a reflected attribute (`className`, `href`, `target`, `rel`, `dataset.x`). -/
def Element.setAttribute (e : Element) (k v : String) : Element :=
  { e with attrs := setAttr e.attrs k v }

/-- Assignment `e.textContent = s`: all children are replaced by one text node,
or by nothing when `s` is the empty string. -/
def Element.setTextContent (e : Element) (s : String) : Element :=
  { e with children := if s = "" then [] else [.text s] }

/-- Assignment `e.innerHTML = ''`: all children are removed. -/
def Element.clearInnerHTML (e : Element) : Element := { e with children := [] }

/-- The call `p.appendChild(c)` (also `p.append(c)`) for a detached element `c`. -/
def Element.appendChild (p c : Element) : Element :=
  { p with children := p.children ++ [c.toNode] }

/-- The call `p.prepend(c)` for a detached element `c`. -/
def Element.prepend (p c : Element) : Element :=
  { p with children := c.toNode :: p.children }

/-- Value of attribute `k`, if set. -/
def getAttr (attrs : List (String × String)) (k : String) : Option String :=
  (attrs.find? (fun kv => kv.1 = k)).map Prod.snd

mutual
/-- The getter `node.textContent`: the text of all descendants, in order. -/
def Node.textContent : Node → String
  | .text s => s
  | .elem _ _ cs => textContentList cs
/-- Text of a list of sibling nodes. -/
def textContentList : List Node → String
  | [] => ""
  | c :: cs => c.textContent ++ textContentList cs
end

mutual
/-- The anchor elements (`a`) among a node and its descendants, in document order. -/
def Node.anchors : Node → List Node
  | .text _ => []
  | .elem tag attrs cs =>
      if tag = "a" then Node.elem tag attrs cs :: anchorsList cs else anchorsList cs
/-- Anchors within a list of sibling nodes. -/
def anchorsList : List Node → List Node
  | [] => []
  | c :: cs => c.anchors ++ anchorsList cs
end

/-- Tag of a node (`none` for a text node). -/
def Node.tag? : Node → Option String
  | .text _ => none
  | .elem tag _ _ => some tag

/-- Attribute `k` of a node, if it is an element that has it. -/
def Node.attr? : Node → String → Option String
  | .text _, _ => none
  | .elem _ attrs _, k => getAttr attrs k

/-- Child nodes of a node. -/
def Node.children : Node → List Node
  | .text _ => []
  | .elem _ _ cs => cs

/-! ## JavaScript values and operators used by the renderers -/

/-- The test `Boolean(x)` on an optional string: `undefined` and `''` are falsy. -/
def truthy : Option String → Bool
  | none => false
  | some s => s ≠ ""

/-- The expression `a || b` on optional strings. -/
def jsOr (a b : Option String) : Option String := if truthy a then a else b

/-- The expression `a || d` where `d` is a string literal. -/
def orDefault (a : Option String) (d : String) : String :=
  match a with
  | none => d
  | some s => if s = "" then d else s

/-- The call `xs.filter(Boolean)` on an array of optional strings. -/
def filterBoolean (xs : List (Option String)) : List String :=
  xs.filterMap (fun x => if truthy x then x else none)

/-- The call `xs.join(sep)`. -/
def join (sep : String) : List String → String
  | [] => ""
  | [a] => a
  | a :: b :: rest => a ++ sep ++ join sep (b :: rest)

/-- The call `s.startsWith(p)`. -/
def startsWith (s p : String) : Bool := p.data.isPrefixOf s.data

/-! ## Content document -/

structure ContactInfo where
  github : Option String := none
  linkedin : Option String := none
  email : Option String := none

structure Project where
  name : String
  location : Option String := none
  tech : Option (List String) := none
  description : Option (List String) := none
  repo : Option String := none
  link : Option String := none

structure Role where
  title : Option String := none
  company : Option String := none
  location : Option String := none
  date : Option String := none
  responsibilities : Option (List String) := none

structure Institution where
  school : String
  degree : Option String := none
  minor : Option String := none
  location : Option String := none
  expectedGraduation : Option String := none
  gpa : Option String := none
  coursework : Option (List String) := none

structure SkillGroups where
  languages : Option (List String) := none
  developerTools : Option (List String) := none
  spokenLanguages : Option (List String) := none

structure ContentDocument where
  name : String
  contact : Option ContactInfo := none
  projects : Option (List Project) := none
  experience : Option (List Role) := none
  education : Option (List Institution) := none
  skills : Option SkillGroups := none

/-- The property access `skills[key]`. -/
def SkillGroups.get (skills : SkillGroups) (key : String) : Option (List String) :=
  if key = "languages" then skills.languages
  else if key = "developerTools" then skills.developerTools
  else if key = "spokenLanguages" then skills.spokenLanguages
  else none

/-! ## Page state -/

/-- The mount points looked up by id; `none` when the markup has no such element. -/
structure Dom where
  heroName : Option Element
  heroTagline : Option Element
  heroSummary : Option Element
  heroLinks : Option Element
  heroFooterName : Option Element
  projectsGrid : Option Element
  experienceList : Option Element
  educationCards : Option Element
  skillsGroups : Option Element

/-- Result of running a renderer: completed, or threw part-way. -/
inductive Outcome where
  | done (dom : Dom)
  | threw (dom : Dom)

def TAGLINE : String := "Software Engineer | Building creative and impactful technology."

/-! ## renderHero -/

/-- A list item element `li` holding `s`, as built in each `forEach` over strings. -/
def textElement (tag : String) (s : String) : Element :=
  (createElement tag).setTextContent s

/-- The three candidate links of `renderHero` before filtering. -/
def contactCandidates (contact : Option ContactInfo) : List (String × Option String) :=
  [ ("GitHub", contact.bind (·.github)),
    ("LinkedIn", contact.bind (·.linkedin)),
    ("Email",
      if truthy (contact.bind (·.email)) then
        (contact.bind (·.email)).map (fun e => "mailto:" ++ e)
      else none) ]

/-- The array `contactLinks`: candidates whose `href` is truthy. -/
def contactLinks (contact : Option ContactInfo) : List (String × String) :=
  (contactCandidates contact).filterMap
    (fun link => if truthy link.2 then link.2.map (fun h => (link.1, h)) else none)

/-- The anchor built for one contact link (body of the `forEach`). -/
def contactAnchor (link : String × String) : Element :=
  let anchor := createElement "a"
  let anchor := anchor.setAttribute "href" link.2
  let anchor := anchor.setAttribute "target" (if startsWith link.2 "http" then "_blank" else "_self")
  let anchor := anchor.setAttribute "rel" (if startsWith link.2 "http" then "noopener" else "")
  anchor.setTextContent link.1

/-- The text assigned to `heroSummary.textContent`. -/
def heroSummaryText (data : ContentDocument) : String :=
  let primaryLocation :=
    orDefault ((data.education.bind (·.head?)).bind (·.location)) "New York, NY"
  let projectCount := (data.projects.map List.length).getD 0
  let experienceCount := (data.experience.map List.length).getD 0
  let experienceCopy :=
    if experienceCount ≠ 0 then toString experienceCount ++ " engineering experiences"
    else "multi-disciplinary experiences"
  let projectCopy :=
    if projectCount ≠ 0 then toString projectCount ++ " experiments" else "countless experiments"
  "Based in " ++ primaryLocation ++
    ", I merge artistic curiosity with rigorous systems thinking across " ++
    experienceCopy ++ " and " ++ projectCopy ++ "."

def renderHero (data : ContentDocument) (dom : Dom) : Outcome :=
  match dom.heroTagline with
  | none => .threw dom
  | some heroTagline =>
    let dom := { dom with heroTagline := some (heroTagline.setTextContent TAGLINE) }
    match dom.heroName with
    | none => .threw dom
    | some heroName =>
      let dom := { dom with
        heroName := some (heroName.setTextContent ("Hi, I'm " ++ data.name ++ ".")) }
      match dom.heroSummary with
      | none => .threw dom
      | some heroSummary =>
        let dom := { dom with
          heroSummary := some (heroSummary.setTextContent (heroSummaryText data)) }
        match dom.heroLinks with
        | none => .threw dom
        | some heroLinks =>
          let heroLinks := heroLinks.clearInnerHTML
          let heroLinks :=
            (contactLinks data.contact).foldl
              (fun links link => links.appendChild (contactAnchor link)) heroLinks
          let dom := { dom with heroLinks := some heroLinks }
          match dom.heroFooterName with
          | none => .done dom
          | some footerName =>
            .done { dom with heroFooterName := some (footerName.setTextContent data.name) }

/-! ## renderProjects -/

/-- A `ul` with class `cls` holding one `li` per string. -/
def stringList (cls : String) (items : List String) : Element :=
  let ul := (createElement "ul").setAttribute "class" cls
  items.foldl (fun ul item => ul.appendChild (textElement "li" item)) ul

/-- The value `metaText` of a project card. -/
def projectMetaText (project : Project) : String :=
  join " • " (filterBoolean [project.location, project.tech.map (join " • ")])

/-- The value `repoLink` of a project card. -/
def repoLink (project : Project) (contact : ContactInfo) : String :=
  orDefault (jsOr (jsOr project.repo project.link) contact.github) "#"

/-- The card built for one project (body of the `forEach` in `renderProjects`). -/
def projectCard (project : Project) (contact : ContactInfo) : Element :=
  let card := createElement "article"
  let card := card.setAttribute "class" "project-card"
  let card := card.setAttribute "data-animate" "fade"
  let title := (createElement "h3").setTextContent project.name
  let metaText := projectMetaText project
  let card :=
    if metaText ≠ "" then
      card.appendChild
        (((createElement "p").setAttribute "class" "project-meta").setTextContent metaText)
    else card
  let techStack := project.tech.getD []
  let descItems := project.description.getD []
  let card :=
    if techStack.length ≠ 0 then card.appendChild (stringList "project-card__stack" techStack)
    else card
  let card :=
    if descItems.length ≠ 0 then card.appendChild (stringList "project-card__details" descItems)
    else card
  let actions := (createElement "div").setAttribute "class" "project-card__actions"
  let githubButton := createElement "a"
  let githubButton := githubButton.setAttribute "class" "btn btn--ghost"
  let githubButton := githubButton.setTextContent "View on GitHub"
  let githubButton := githubButton.setAttribute "href" (repoLink project contact)
  let githubButton := githubButton.setAttribute "target" "_blank"
  let githubButton := githubButton.setAttribute "rel" "noopener"
  let actions := actions.appendChild githubButton
  let card := card.prepend title
  card.appendChild actions

/-- Renderer of the projects section; the defaults `projects = []` and `contact = {}`
apply to a missing argument. -/
def renderProjects (projects : Option (List Project)) (contact : Option ContactInfo)
    (dom : Dom) : Dom :=
  match dom.projectsGrid with
  | none => dom
  | some grid =>
    let grid := grid.clearInnerHTML
    let grid :=
      (projects.getD []).foldl
        (fun grid project => grid.appendChild (projectCard project (contact.getD {}))) grid
    { dom with projectsGrid := some grid }

/-! ## renderExperience -/

/-- The text assigned to the heading of an experience card. -/
def roleHeadingText (role : Role) : String :=
  let headingText := join " · " (filterBoolean [role.title, role.company])
  orDefault (jsOr (jsOr (some headingText) role.title) role.company) "Experience"

/-- The value `metaParts` of an experience card. -/
def roleMetaText (role : Role) : String :=
  join " • " (filterBoolean [role.location, role.date])

/-- The card built for one role (body of the `forEach` in `renderExperience`). -/
def experienceCard (role : Role) : Element :=
  let card := createElement "article"
  let card := card.setAttribute "class" "experience-card"
  let card := card.setAttribute "data-animate" "fade"
  let heading := (createElement "h3").setTextContent (roleHeadingText role)
  let metaParts := roleMetaText role
  let card :=
    if metaParts ≠ "" then card.appendChild ((createElement "p").setTextContent metaParts)
    else card
  let bullets :=
    (role.responsibilities.getD []).foldl
      (fun bullets item => bullets.appendChild (textElement "li" item)) (createElement "ul")
  let card := card.prepend heading
  card.appendChild bullets

def renderExperience (experience : Option (List Role)) (dom : Dom) : Dom :=
  match dom.experienceList with
  | none => dom
  | some list =>
    let list := list.clearInnerHTML
    let list :=
      (experience.getD []).foldl (fun list role => list.appendChild (experienceCard role)) list
    { dom with experienceList := some list }

/-! ## renderEducation -/

/-- A template literal with a fixed label before an optional value, used only when
the value is truthy, else null. -/
def labelled (label : String) (x : Option String) : Option String :=
  if truthy x then x.map (fun v => label ++ v) else none

/-- The value `degreeText` of an education card. -/
def degreeText (entry : Institution) : String :=
  join " · " (filterBoolean [entry.degree, labelled "Minor in " entry.minor])

/-- The value `metaParts` of an education card. -/
def educationMetaText (entry : Institution) : String :=
  join " • " (filterBoolean
    [entry.location, labelled "Grad " entry.expectedGraduation, labelled "GPA " entry.gpa])

/-- The card built for one institution (body of the `forEach` in `renderEducation`). -/
def educationCard (entry : Institution) : Element :=
  let card := createElement "article"
  let card := card.setAttribute "class" "education-card"
  let card := card.setAttribute "data-animate" "fade"
  let title := (createElement "h3").setTextContent entry.school
  let card := card.appendChild title
  let card :=
    if truthy (jsOr entry.degree entry.minor) then
      card.appendChild ((createElement "p").setTextContent (degreeText entry))
    else card
  let metaParts := educationMetaText entry
  let card :=
    if metaParts ≠ "" then card.appendChild ((createElement "p").setTextContent metaParts)
    else card
  let coursework := (createElement "details").setAttribute "class" "coursework"
  let summary := (createElement "summary").setTextContent "Highlighted coursework"
  let coursework := coursework.appendChild summary
  let list := stringList "coursework-list" (entry.coursework.getD [])
  let coursework := coursework.appendChild list
  card.appendChild coursework

def renderEducation (education : Option (List Institution)) (dom : Dom) : Dom :=
  match dom.educationCards with
  | none => dom
  | some container =>
    let container := container.clearInnerHTML
    let container :=
      (education.getD []).foldl
        (fun container entry => container.appendChild (educationCard entry)) container
    { dom with educationCards := some container }

/-! ## renderSkills -/

/-- The array `mapping` of category keys and labels. -/
def skillMapping : List (String × String) :=
  [ ("languages", "Languages"),
    ("developerTools", "Developer Tools"),
    ("spokenLanguages", "Spoken Languages") ]

/-- The group built for one non-empty category. -/
def skillGroup (label : String) (items : List String) : Element :=
  let group := createElement "div"
  let group := group.setAttribute "class" "skill-group"
  let group := group.setAttribute "data-animate" "fade"
  let heading := (createElement "h3").setTextContent label
  let tags := (createElement "div").setAttribute "class" "skill-tags"
  let tags :=
    items.foldl
      (fun tags skill =>
        tags.appendChild
          (((createElement "span").setAttribute "class" "skill-tag").setTextContent skill))
      tags
  (group.appendChild heading).appendChild tags

/-- Body of `mapping.forEach`: return early on a missing or empty category. -/
def skillStep (skills : SkillGroups) (groups : Element) (entry : String × String) : Element :=
  match skills.get entry.1 with
  | none => groups
  | some items => if items.length = 0 then groups else groups.appendChild (skillGroup entry.2 items)

def renderSkills (skills : Option SkillGroups) (dom : Dom) : Dom :=
  match dom.skillsGroups with
  | none => dom
  | some groups =>
    let groups := groups.clearInnerHTML
    let groups := skillMapping.foldl (skillStep (skills.getD {})) groups
    { dom with skillsGroups := some groups }

/-! ## hydrateSite -/

inductive Section where
  | hero | projects | experience | education | skills
  deriving DecidableEq, Repr

/-- Observable steps of a hydration pass. -/
inductive Event where
  | invoked (s : Section)
  | registerAnimations
  | consoleError
  deriving DecidableEq, Repr

/-- The page together with the script globals and the record of steps taken. -/
structure World where
  dom : Dom
  resumeData : Option ContentDocument
  cbData : Option ContentDocument
  trace : List Event

/-- What `fetch(DATA_PATH)` followed by `response.json()` delivers: the fetch rejects,
or a response arrives whose body fails to parse (`none`) or parses to a document. -/
inductive FetchResult where
  | rejected
  | response (body : Option ContentDocument)

/-- State of the `try` block: still running, or an exception is in flight. -/
inductive Step where
  | ok (w : World)
  | threw (w : World)

/-- The five section renderers as called by `hydrateSite`. -/
structure Renderers where
  hero : ContentDocument → Dom → Outcome
  projects : Option (List Project) → Option ContactInfo → Dom → Outcome
  experience : Option (List Role) → Dom → Outcome
  education : Option (List Institution) → Dom → Outcome
  skills : Option SkillGroups → Dom → Outcome

/-- The renderers of `script.js`. -/
def sourceRenderers : Renderers where
  hero := renderHero
  projects := fun projects contact dom => .done (renderProjects projects contact dom)
  experience := fun experience dom => .done (renderExperience experience dom)
  education := fun education dom => .done (renderEducation education dom)
  skills := fun skills dom => .done (renderSkills skills dom)

/-- One renderer call statement inside the `try` block. -/
def call (s : Section) (f : Dom → Outcome) (w : World) : Step :=
  let w := { w with trace := w.trace ++ [Event.invoked s] }
  match f w.dom with
  | .done d => .ok { w with dom := d }
  | .threw d => .threw { w with dom := d }

/-- Sequencing of statements: an exception in flight skips what follows. -/
def Step.andThen (s : Step) (f : World → Step) : Step :=
  match s with
  | .ok w => f w
  | .threw w => .threw w

/-- The five renderer calls of `hydrateSite`, in source order. -/
def renderPass (R : Renderers) (data : ContentDocument) (w : World) : Step :=
  (call .hero (R.hero data) w).andThen fun w =>
  (call .projects (R.projects data.projects data.contact) w).andThen fun w =>
  (call .experience (R.experience data.experience) w).andThen fun w =>
  (call .education (R.education data.education) w).andThen fun w =>
  call .skills (R.skills data.skills) w

/-- The orchestrator `hydrateSite`, over any five renderers. -/
def hydrateWith (R : Renderers) (fetched : FetchResult) (w : World) : World :=
  let body : Step :=
    match fetched with
    | .rejected => .threw w
    | .response none => .threw w
    | .response (some data) =>
      let w := { w with resumeData := some data }
      let w := { w with cbData := some data }
      (renderPass R data w).andThen fun w =>
        .ok { w with trace := w.trace ++ [Event.registerAnimations] }
  match body with
  | .ok w => w
  | .threw w => { w with trace := w.trace ++ [Event.consoleError] }

def hydrateSite (fetched : FetchResult) (w : World) : World :=
  hydrateWith sourceRenderers fetched w

/-- The full render pass (the five renderer calls) on a page, outside any orchestration. -/
def renderAll (data : ContentDocument) (dom : Dom) : Outcome :=
  match renderPass sourceRenderers data ⟨dom, none, none, []⟩ with
  | .ok w => .done w.dom
  | .threw w => .threw w.dom

/-- The order in which the sections are rendered. -/
def renderOrder : List Section :=
  [.hero, .projects, .experience, .education, .skills]

/-! ## Derived views used to state the properties -/

/-- The action control of a project card, as a node. -/
def actionAnchor (href : String) : Node :=
  .elem "a"
    [("class", "btn btn--ghost"), ("href", href), ("target", "_blank"), ("rel", "noopener")]
    [.text "View on GitHub"]

/-- The optional middle children of a project card: meta line, tech list, description list. -/
def projectCardMiddle (project : Project) : List Node :=
  (if projectMetaText project ≠ "" then
      [Node.elem "p" [("class", "project-meta")] [.text (projectMetaText project)]]
    else []) ++
  (if (project.tech.getD []).length ≠ 0 then
      [(stringList "project-card__stack" (project.tech.getD [])).toNode]
    else []) ++
  (if (project.description.getD []).length ≠ 0 then
      [(stringList "project-card__details" (project.description.getD [])).toNode]
    else [])

/-- A page whose nine mount points are all present and empty. -/
def skeleton : Dom where
  heroName := some (createElement "h1")
  heroTagline := some (createElement "p")
  heroSummary := some (createElement "p")
  heroLinks := some (createElement "div")
  heroFooterName := some (createElement "span")
  projectsGrid := some (createElement "div")
  experienceList := some (createElement "div")
  educationCards := some (createElement "div")
  skillsGroups := some (createElement "div")

/-- A string that is present and non-empty, else nothing. -/
def nonEmpty (x : Option String) : Option String := x.filter (fun s => s ≠ "")

/-- First non-empty value among the candidates, else the placeholder. -/
def firstNonEmpty (candidates : List (Option String)) (placeholder : String) : String :=
  ((candidates.filterMap nonEmpty).head?).getD placeholder

/-- The categories with a non-empty tag sequence, in the fixed order, each with its label. -/
def nonEmptyCategories (skills : SkillGroups) : List (String × List String) :=
  [ ("Languages", skills.languages),
    ("Developer Tools", skills.developerTools),
    ("Spoken Languages", skills.spokenLanguages) ].filterMap
    (fun entry =>
      match entry.2 with
      | some (x :: xs) => some (entry.1, x :: xs)
      | _ => none)

/-- The heading texts of a list of rendered groups or cards (text of each first child). -/
def headingTexts (nodes : List Node) : List String :=
  nodes.filterMap (fun g => g.children.head?.map Node.textContent)

/-- The page a renderer left behind, whether it completed or threw. -/
def Outcome.dom : Outcome → Dom
  | .done d => d
  | .threw d => d

/-- The children of the hero links container after `renderHero`. -/
def heroAnchors (data : ContentDocument) (dom : Dom) : List Node :=
  ((renderHero data dom).dom.heroLinks.map (·.children)).getD []

/-- The contact channels that have a non-empty value, in the order github, linkedin, email,
each with its label and its URI (the value itself, for email the value after `mailto:`). -/
def expectedChannels (contact : Option ContactInfo) : List (String × String) :=
  (match nonEmpty (contact.bind (·.github)) with
    | some v => [("GitHub", v)]
    | none => []) ++
  (match nonEmpty (contact.bind (·.linkedin)) with
    | some v => [("LinkedIn", v)]
    | none => []) ++
  (match nonEmpty (contact.bind (·.email)) with
    | some v => [("Email", "mailto:" ++ v)]
    | none => [])

/-- A character allowed in a URI scheme after its first letter. -/
def isSchemeChar (c : Char) : Bool :=
  c.isAlphanum || c = '+' || c = '-' || c = '.'

/-- An absolute URI starts with a scheme and a colon (a letter, then letters, digits,
`+`, `-` or `.`); anything else is a relative reference. -/
def isAbsoluteURI (uri : String) : Bool :=
  let scheme := uri.data.takeWhile (fun c => c ≠ ':')
  decide (scheme.length < uri.data.length) && scheme.head?.any Char.isAlpha &&
    scheme.all isSchemeChar

/-- The composed line of the field formatter: the non-empty inputs joined with the
separator, or nothing when no input is non-empty. -/
def composeLine (sep : String) (inputs : List (Option String)) : Option String :=
  match inputs.filterMap nonEmpty with
  | [] => none
  | part :: parts => some (join sep (part :: parts))

/-- The texts of the paragraph (`p`) children of a card, in order: its composed lines. -/
def paragraphTexts (card : Node) : List String :=
  card.children.filterMap (fun n => if n.tag? = some "p" then some n.textContent else none)

/-- The element with its children replaced. -/
def Element.withChildren (e : Element) (cs : List Node) : Element := { e with children := cs }

/-- The child nodes that `textContent = s` leaves. -/
def textNodes (s : String) : List Node := if s = "" then [] else [.text s]

/-- Closed form of the page after a completed render pass: every mount point that exists
keeps its tag and attributes and gets the children written by its renderer. -/
def renderedPage (data : ContentDocument) (dom : Dom) : Dom where
  heroName := dom.heroName.map (·.withChildren (textNodes ("Hi, I'm " ++ data.name ++ ".")))
  heroTagline := dom.heroTagline.map (·.withChildren (textNodes TAGLINE))
  heroSummary := dom.heroSummary.map (·.withChildren (textNodes (heroSummaryText data)))
  heroLinks := dom.heroLinks.map
    (·.withChildren ((contactLinks data.contact).map (fun l => (contactAnchor l).toNode)))
  heroFooterName := dom.heroFooterName.map (·.withChildren (textNodes data.name))
  projectsGrid := dom.projectsGrid.map
    (·.withChildren
      ((data.projects.getD []).map (fun p => (projectCard p (data.contact.getD {})).toNode)))
  experienceList := dom.experienceList.map
    (·.withChildren ((data.experience.getD []).map (fun r => (experienceCard r).toNode)))
  educationCards := dom.educationCards.map
    (·.withChildren ((data.education.getD []).map (fun e => (educationCard e).toNode)))
  skillsGroups := dom.skillsGroups.map
    (·.withChildren
      ((nonEmptyCategories (data.skills.getD {})).map (fun c => (skillGroup c.1 c.2).toNode)))

/-- The page with the children of every mount point removed: what stays of a page whatever
its containers hold. -/
def Dom.shell (dom : Dom) : Dom where
  heroName := dom.heroName.map (·.withChildren [])
  heroTagline := dom.heroTagline.map (·.withChildren [])
  heroSummary := dom.heroSummary.map (·.withChildren [])
  heroLinks := dom.heroLinks.map (·.withChildren [])
  heroFooterName := dom.heroFooterName.map (·.withChildren [])
  projectsGrid := dom.projectsGrid.map (·.withChildren [])
  experienceList := dom.experienceList.map (·.withChildren [])
  educationCards := dom.educationCards.map (·.withChildren [])
  skillsGroups := dom.skillsGroups.map (·.withChildren [])

/-- A page with all mount points present whose containers still hold earlier content. -/
def stalePage : Dom where
  heroName := some ((createElement "h1").withChildren [.text "Hi, I'm Bob."])
  heroTagline := some ((createElement "p").withChildren [.text "old"])
  heroSummary := some ((createElement "p").withChildren [.text "old"])
  heroLinks := some ((createElement "div").withChildren [.elem "a" [("href", "#")] []])
  heroFooterName := some ((createElement "span").withChildren [.text "Bob"])
  projectsGrid := some ((createElement "div").withChildren [.elem "article" [] []])
  experienceList := some ((createElement "div").withChildren [.elem "article" [] []])
  educationCards := some ((createElement "div").withChildren [.text "loading"])
  skillsGroups := some ((createElement "div").withChildren [.elem "div" [] []])

/-- The sample document of the end-to-end example. -/
def sampleDocument : ContentDocument where
  name := "Ava"
  projects := some [{ name := "P1" }]
  experience := some []
  education := some [{ school := "X" }]
  skills := some { languages := some ["Go"] }

/-- The renderer calls of `hydrateSite` as a list, each with the section it renders. -/
def rendererSteps (R : Renderers) (data : ContentDocument) : List (Section × (Dom → Outcome)) :=
  [ (.hero, R.hero data),
    (.projects, R.projects data.projects data.contact),
    (.experience, R.experience data.experience),
    (.education, R.education data.education),
    (.skills, R.skills data.skills) ]

/-- The page after all the given renderers completed one after the other, if none threw. -/
def chainDone : List (Section × (Dom → Outcome)) → Dom → Option Dom
  | [], d => some d
  | (_, f) :: rest, d =>
    match f d with
    | .done d1 => chainDone rest d1
    | .threw _ => none

/-- Fail-fast run of a list of renderer calls. -/
def runSteps : List (Section × (Dom → Outcome)) → World → Step
  | [], w => .ok w
  | (s, f) :: rest, w => (call s f w).andThen (runSteps rest)

/-- A page whose markup lacks the hero summary element; the other mount points are empty. -/
def pageWithoutSummary : Dom := { skeleton with heroSummary := none }

/-! ## Auxiliary facts on the DOM operations -/

theorem foldl_appendChild {α : Type} (f : α → Element) (xs : List α) (g : Element) :
    xs.foldl (fun g x => g.appendChild (f x)) g
      = { g with children := g.children ++ xs.map (fun x => (f x).toNode) } := by
  induction xs generalizing g with
  | nil => simp
  | cons x xs ih =>
    rw [List.foldl_cons, ih]
    simp [Element.appendChild]

theorem anchorsList_append (xs ys : List Node) :
    anchorsList (xs ++ ys) = anchorsList xs ++ anchorsList ys := by
  induction xs with
  | nil => simp [anchorsList]
  | cons x xs ih => simp [anchorsList, ih]

theorem anchors_textElement (tag s : String) (h : tag ≠ "a") :
    (textElement tag s).toNode.anchors = [] := by
  unfold textElement Element.setTextContent createElement Element.toNode
  by_cases hs : s = "" <;> simp [Node.anchors, anchorsList, h, hs]

theorem anchorsList_textElements (tag : String) (h : tag ≠ "a") (items : List String) :
    anchorsList (items.map (fun s => (textElement tag s).toNode)) = [] := by
  induction items with
  | nil => simp [anchorsList]
  | cons x xs ih => simp [anchorsList, ih, anchors_textElement tag x h]

theorem anchors_stringList (cls : String) (items : List String) :
    (stringList cls items).toNode.anchors = [] := by
  unfold stringList
  rw [foldl_appendChild]
  simp only [Element.toNode, Node.anchors]
  have h : ("ul" : String) ≠ "a" := by decide
  have h2 : ((createElement "ul").setAttribute "class" cls).tag = "ul" := rfl
  have h3 : ((createElement "ul").setAttribute "class" cls).children = [] := rfl
  rw [h2, h3, if_neg h]
  simpa using anchorsList_textElements "li" (by decide) items

theorem textContent_textElement (tag s : String) :
    (textElement tag s).toNode.textContent = s := by
  unfold textElement Element.setTextContent createElement Element.toNode
  by_cases hs : s = "" <;> simp [Node.textContent, textContentList, hs]

theorem actionAnchor_attrs (href : String) :
    setAttr (setAttr (setAttr (setAttr [] "class" "btn btn--ghost") "href" href)
      "target" "_blank") "rel" "noopener"
      = [("class", "btn btn--ghost"), ("href", href), ("target", "_blank"), ("rel", "noopener")] := by
  simp [setAttr]

theorem cardAttrs (cls : String) :
    setAttr (setAttr [] "class" cls) "data-animate" "fade"
      = [("class", cls), ("data-animate", "fade")] := by
  simp [setAttr]

theorem projectCard_toNode (project : Project) (contact : ContactInfo) :
    (projectCard project contact).toNode
      = .elem "article" [("class", "project-card"), ("data-animate", "fade")]
          ((textElement "h3" project.name).toNode ::
            (projectCardMiddle project ++
              [.elem "div" [("class", "project-card__actions")]
                [actionAnchor (repoLink project contact)]])) := by
  unfold projectCard projectCardMiddle
  by_cases h1 : projectMetaText project = "" <;>
  by_cases h2 : (project.tech.getD []).length = 0 <;>
  by_cases h3 : (project.description.getD []).length = 0 <;>
  simp only [h1, h2, h3, ne_eq, not_true_eq_false, not_false_eq_true, if_true, if_false,
      Element.toNode, Element.appendChild, Element.prepend, Element.setAttribute,
      Element.setTextContent, createElement, actionAnchor_attrs, cardAttrs, textElement,
      actionAnchor, List.nil_append, List.append_nil, List.cons_append, List.append_assoc] <;>
  simp [setAttr]

theorem anchorsList_nil : anchorsList [] = [] := by simp [anchorsList]

theorem anchorsList_cons (c : Node) (cs : List Node) :
    anchorsList (c :: cs) = c.anchors ++ anchorsList cs := by simp [anchorsList]

theorem anchors_text (s : String) : (Node.text s).anchors = [] := by simp [Node.anchors]

theorem anchors_elem (tag : String) (attrs : List (String × String)) (cs : List Node) :
    (Node.elem tag attrs cs).anchors
      = if tag = "a" then Node.elem tag attrs cs :: anchorsList cs else anchorsList cs := by
  simp [Node.anchors]

theorem anchorsList_projectCardMiddle (project : Project) :
    anchorsList (projectCardMiddle project) = [] := by
  have hst := anchors_stringList "project-card__stack" (project.tech.getD [])
  have hsd := anchors_stringList "project-card__details" (project.description.getD [])
  unfold projectCardMiddle
  by_cases h1 : projectMetaText project = "" <;>
  by_cases h2 : (project.tech.getD []).length = 0 <;>
  by_cases h3 : (project.description.getD []).length = 0 <;>
  simp [h1, h2, h3, anchorsList_nil, anchorsList_cons, anchorsList_append, hst, hsd,
    anchors_elem, anchors_text]

theorem projectCard_anchors (project : Project) (contact : ContactInfo) :
    (projectCard project contact).toNode.anchors = [actionAnchor (repoLink project contact)] := by
  rw [projectCard_toNode]
  have hti := anchors_textElement "h3" project.name (by decide)
  simp [anchorsList_nil, anchorsList_cons, anchorsList_append, anchors_elem, anchors_text,
    anchorsList_projectCardMiddle, hti, actionAnchor]

theorem renderProjects_grid (projects : Option (List Project)) (contact : Option ContactInfo)
    (dom : Dom) (grid : Element) (h : dom.projectsGrid = some grid) :
    (renderProjects projects contact dom).projectsGrid
      = some { grid with
          children := (projects.getD []).map
            (fun p => (projectCard p (contact.getD {})).toNode) } := by
  unfold renderProjects
  rw [h]
  simp only [foldl_appendChild, Element.clearInnerHTML, List.nil_append]

theorem nonEmpty_some (v : String) : nonEmpty (some v) = if v = "" then none else some v := by
  unfold nonEmpty
  by_cases h : v = "" <;> simp [Option.filter, h]

theorem truthy_some (v : String) : truthy (some v) = !decide (v = "") := by
  simp [truthy]

theorem orChain_eq_firstNonEmpty (r l g : Option String) :
    orDefault (jsOr (jsOr r l) g) "#" = firstNonEmpty [r, l, g] "#" := by
  rcases r with _ | r <;> rcases l with _ | l <;> rcases g with _ | g
  all_goals
    simp only [jsOr, truthy, orDefault, firstNonEmpty, List.filterMap_cons, List.filterMap_nil,
      nonEmpty_some]
  all_goals try (by_cases hr : r = "")
  all_goals try (by_cases hl : l = "")
  all_goals try (by_cases hg : g = "")
  all_goals simp_all [nonEmpty, Option.filter]

theorem repoLink_eq_firstNonEmpty (project : Project) (contact : ContactInfo) :
    repoLink project contact
      = firstNonEmpty [project.repo, project.link, contact.github] "#" :=
  orChain_eq_firstNonEmpty _ _ _

theorem firstNonEmpty_ne_empty (candidates : List (Option String)) (placeholder : String)
    (h : placeholder ≠ "") : firstNonEmpty candidates placeholder ≠ "" := by
  unfold firstNonEmpty
  rcases hh : (candidates.filterMap nonEmpty).head? with _ | v
  · simpa using h
  · have hm : v ∈ candidates.filterMap nonEmpty := List.mem_of_mem_head? hh
    rcases List.mem_filterMap.mp hm with ⟨c, _, hc⟩
    unfold nonEmpty at hc
    rcases c with _ | c
    · simp at hc
    · simp only [Option.filter] at hc
      split at hc
      · rename_i hne
        simp only [Option.some.injEq] at hc
        subst hc
        simpa using hne
      · simp at hc

theorem projectCard_title (project : Project) (contact : ContactInfo) :
    ∃ title, (projectCard project contact).toNode.children.head? = some title ∧
      title.tag? = some "h3" ∧ title.textContent = project.name := by
  refine ⟨(textElement "h3" project.name).toNode, ?_, ?_, textContent_textElement _ _⟩
  · rw [projectCard_toNode]; rfl
  · rfl

/-- C1: when the projects container exists, `renderProjects` leaves in it exactly one card
per project, in input order (none for an empty or missing sequence); the first child of
every card is a title `h3` whose text is the project name, and every card holds exactly
one anchor, with target `_blank`. -/
theorem renderProjects_one_card_per_project (projects : Option (List Project))
    (contact : Option ContactInfo) (dom : Dom) (grid : Element)
    (h : dom.projectsGrid = some grid) :
    ∃ cards : List Node,
      (renderProjects projects contact dom).projectsGrid = some { grid with children := cards } ∧
      cards.length = (projects.getD []).length ∧
      List.Forall₂
        (fun (p : Project) (card : Node) =>
          card.tag? = some "article" ∧
          (∃ title, card.children.head? = some title ∧ title.tag? = some "h3" ∧
            title.textContent = p.name) ∧
          (∃ a, card.anchors = [a] ∧ a.tag? = some "a" ∧ a.attr? "target" = some "_blank"))
        (projects.getD []) cards := by
  refine ⟨_, renderProjects_grid projects contact dom grid h, by simp, ?_⟩
  rw [List.forall₂_map_right_iff]
  apply List.forall₂_same.mpr
  intro p _
  refine ⟨?_, projectCard_title p _, actionAnchor _, projectCard_anchors p _, rfl, ?_⟩
  · rw [projectCard_toNode]; rfl
  · simp [actionAnchor, Node.attr?, getAttr, List.find?]

theorem renderProjects_one_card_per_project_witness :
    ∃ cards : List Node,
      (renderProjects (some [{ name := "P1" }, { name := "P2", tech := some ["Go"] }]) none
          skeleton).projectsGrid = some { createElement "div" with children := cards } ∧
      cards.length = 2 ∧
      List.Forall₂
        (fun (p : Project) (card : Node) =>
          card.tag? = some "article" ∧
          (∃ title, card.children.head? = some title ∧ title.tag? = some "h3" ∧
            title.textContent = p.name) ∧
          (∃ a, card.anchors = [a] ∧ a.tag? = some "a" ∧ a.attr? "target" = some "_blank"))
        [{ name := "P1" }, { name := "P2", tech := some ["Go"] }] cards :=
  renderProjects_one_card_per_project
    (some [{ name := "P1" }, { name := "P2", tech := some ["Go"] }]) none skeleton
    (createElement "div") rfl

/-- C6: the only anchor of a project card carries as `href` the first non-empty value among
`project.repo`, `project.link` and `contact.github` (a missing contact counting as empty),
else the placeholder `#`; the `href` is never empty. -/
theorem projectCard_action_uri (project : Project) (contact : Option ContactInfo) :
    ∃ a, (projectCard project (contact.getD {})).toNode.anchors = [a] ∧
      a.attr? "href"
        = some (firstNonEmpty [project.repo, project.link, contact.bind (·.github)] "#") ∧
      a.attr? "href" ≠ some "" := by
  have hg : (contact.getD {}).github = contact.bind (·.github) := by
    cases contact <;> rfl
  have hhref : (actionAnchor (repoLink project (contact.getD {}))).attr? "href"
      = some (firstNonEmpty [project.repo, project.link, contact.bind (·.github)] "#") := by
    rw [repoLink_eq_firstNonEmpty, hg]
    simp [actionAnchor, Node.attr?, getAttr, List.find?]
  refine ⟨actionAnchor _, projectCard_anchors project _, hhref, ?_⟩
  rw [hhref]
  intro hc
  exact firstNonEmpty_ne_empty _ "#" (by decide) (Option.some.inj hc)

/-! ## Experience heading -/

theorem append_sep_ne_left (t sep c : String) (h : sep ≠ "") : t ++ sep ++ c ≠ t := by
  intro he
  have hl := congrArg String.length he
  simp only [String.length_append] at hl
  have : sep.length = 0 := by omega
  exact h (String.ext (by simpa using List.length_eq_zero.mp this))

theorem append_sep_ne_right (t sep c : String) (h : sep ≠ "") : t ++ sep ++ c ≠ c := by
  intro he
  have hl := congrArg String.length he
  simp only [String.length_append] at hl
  have : sep.length = 0 := by omega
  exact h (String.ext (by simpa using List.length_eq_zero.mp this))

theorem append_ne_empty_left (t x : String) (h : t ≠ "") : t ++ x ≠ "" := by
  intro he
  have hl := congrArg String.length he
  simp only [String.length_append] at hl
  have : t.length = 0 := by simpa using Nat.eq_zero_of_add_eq_zero_right hl
  exact h (String.ext (by simpa using List.length_eq_zero.mp this))

theorem append_ne_empty_right (x t : String) (h : t ≠ "") : x ++ t ≠ "" := by
  intro he
  have hl := congrArg String.length he
  simp only [String.length_append] at hl
  have : t.length = 0 := by simpa using Nat.eq_zero_of_add_eq_zero_left hl
  exact h (String.ext (by simpa using List.length_eq_zero.mp this))

/-- The heading text by cases on which of title and company are non-empty strings. -/
theorem roleHeadingText_cases (role : Role) :
    roleHeadingText role =
      match nonEmpty role.title, nonEmpty role.company with
      | some t, some c => t ++ " · " ++ c
      | some t, none => t
      | none, some c => c
      | none, none => "Experience" := by
  unfold roleHeadingText
  rcases role.title with _ | t <;> rcases role.company with _ | c
  all_goals try (by_cases ht : t = "")
  all_goals try (by_cases hc : c = "")
  all_goals
    simp_all [filterBoolean, truthy, join, jsOr, orDefault, nonEmpty, Option.filter]
  have hne : t ++ " · " ++ c ≠ "" := append_ne_empty_right _ _ hc
  simp [hne]

theorem experienceCard_heading (role : Role) :
    (experienceCard role).toNode.children.head?
      = some (textElement "h3" (roleHeadingText role)).toNode := by
  unfold experienceCard
  by_cases h : roleMetaText role = "" <;>
    simp [h, Element.toNode, Element.appendChild, Element.prepend, Node.children, textElement]

/-- C2 (counterexample): a role whose company is present as the empty string gets the title
alone as heading, so "title alone iff company is absent" fails for it. -/
theorem heading_title_alone_with_company_present :
    ¬ (((experienceCard { title := some "Engineer", company := some "" }).toNode.children.head?.map
          Node.textContent = some "Engineer")
        ↔ ({ title := some "Engineer", company := some "" } : Role).company = none) := by
  decide

/-- C2 (amended): the first child of an experience card is the heading `h3`. Its text equals
the title alone iff the company is absent or empty (for a non-empty title), the company
alone iff the title is absent or empty (for a non-empty company), the join
`title · company` iff both are non-empty, and the label `Experience` when neither is a
non-empty string. -/
theorem experience_heading_text (role : Role) :
    ∃ heading, (experienceCard role).toNode.children.head? = some heading ∧
      heading.tag? = some "h3" ∧
      (∀ t, role.title = some t → t ≠ "" →
        (heading.textContent = t ↔ nonEmpty role.company = none)) ∧
      (∀ c, role.company = some c → c ≠ "" →
        (heading.textContent = c ↔ nonEmpty role.title = none)) ∧
      (∀ t c, role.title = some t → role.company = some c →
        (heading.textContent = t ++ " · " ++ c ↔ (t ≠ "" ∧ c ≠ ""))) ∧
      (nonEmpty role.title = none → nonEmpty role.company = none →
        heading.textContent = "Experience") := by
  have hsep : (" · " : String) ≠ "" := by decide
  refine ⟨_, experienceCard_heading role, rfl, ?_, ?_, ?_, ?_⟩
  all_goals rw [textContent_textElement, roleHeadingText_cases]
  · intro t ht hne
    have h1 : nonEmpty role.title = some t := by rw [ht, nonEmpty_some, if_neg hne]
    rw [h1]
    rcases hc : nonEmpty role.company with _ | c
    · simp
    · simpa using append_sep_ne_left t " · " c hsep
  · intro c hc hne
    have h1 : nonEmpty role.company = some c := by rw [hc, nonEmpty_some, if_neg hne]
    rw [h1]
    rcases ht : nonEmpty role.title with _ | t
    · simp
    · simpa using append_sep_ne_right t " · " c hsep
  · intro t c ht hc
    rw [ht, hc, nonEmpty_some, nonEmpty_some]
    by_cases h1 : t = "" <;> by_cases h2 : c = ""
    · subst h1; subst h2; decide
    · subst h1
      simp only [if_true, if_neg h2, ne_eq, not_true_eq_false, false_and, iff_false]
      exact fun he => append_sep_ne_right "" " · " c hsep he.symm
    · subst h2
      simp only [if_true, if_neg h1, ne_eq, not_true_eq_false, and_false, iff_false]
      exact fun he => append_sep_ne_left t " · " "" hsep he.symm
    · simp [h1, h2]
  · intro h1 h2
    rw [h1, h2]

theorem experience_heading_text_witness :
    (roleHeadingText { title := some "Engineer", company := some "Acme" }
        = "Engineer" ++ " · " ++ "Acme" ↔ ("Engineer" ≠ "" ∧ "Acme" ≠ "")) ∧
    (roleHeadingText { title := some "Engineer" } = "Engineer"
        ↔ nonEmpty ({ title := some "Engineer" } : Role).company = none) := by
  constructor
  · obtain ⟨heading, hh, _, _, _, h3, _⟩ :=
      experience_heading_text { title := some "Engineer", company := some "Acme" }
    rw [experienceCard_heading] at hh
    have := h3 "Engineer" "Acme" rfl rfl
    rw [← Option.some.inj hh, textContent_textElement] at this
    exact this
  · obtain ⟨heading, hh, _, h1, _, _, _⟩ :=
      experience_heading_text { title := some "Engineer" }
    rw [experienceCard_heading] at hh
    have := h1 "Engineer" rfl (by decide)
    rw [← Option.some.inj hh, textContent_textElement] at this
    exact this

/-! ## Skills -/

theorem skillStep_eq (skills : SkillGroups) (groups : Element) (key label : String) :
    skillStep skills groups (key, label)
      = match skills.get key with
        | some (x :: xs) => groups.appendChild (skillGroup label (x :: xs))
        | _ => groups := by
  unfold skillStep
  rcases skills.get key with _ | items
  · rfl
  · cases items <;> simp

theorem renderSkills_children (skills : Option SkillGroups) (dom : Dom) (groups : Element)
    (h : dom.skillsGroups = some groups) :
    (renderSkills skills dom).skillsGroups
      = some { groups with
          children := (nonEmptyCategories (skills.getD {})).map
            (fun c => (skillGroup c.1 c.2).toNode) } := by
  unfold renderSkills
  rw [h]
  simp only [skillMapping, List.foldl_cons, List.foldl_nil, skillStep_eq]
  have g1 : (skills.getD {}).get "languages" = (skills.getD {}).languages := by
    simp [SkillGroups.get]
  have g2 : (skills.getD {}).get "developerTools" = (skills.getD {}).developerTools := by
    simp [SkillGroups.get]
  have g3 : (skills.getD {}).get "spokenLanguages" = (skills.getD {}).spokenLanguages := by
    simp [SkillGroups.get]
  rw [g1, g2, g3]
  unfold nonEmptyCategories
  rcases (skills.getD {}).languages with _ | _ | ⟨a, as⟩ <;>
    rcases (skills.getD {}).developerTools with _ | _ | ⟨b, bs⟩ <;>
    rcases (skills.getD {}).spokenLanguages with _ | _ | ⟨c, cs⟩ <;>
    simp [Element.clearInnerHTML, Element.appendChild]

theorem skillGroup_toNode (label : String) (items : List String) :
    (skillGroup label items).toNode
      = .elem "div" [("class", "skill-group"), ("data-animate", "fade")]
          [ (textElement "h3" label).toNode,
            .elem "div" [("class", "skill-tags")]
              (items.map (fun skill =>
                (((createElement "span").setAttribute "class" "skill-tag").setTextContent
                  skill).toNode)) ] := by
  unfold skillGroup
  simp only [foldl_appendChild]
  simp [Element.toNode, Element.appendChild, Element.setAttribute, createElement, setAttr,
    textElement]

theorem textContent_skillTag (skill : String) :
    ((((createElement "span").setAttribute "class" "skill-tag").setTextContent
        skill).toNode).textContent = skill := by
  unfold Element.setTextContent Element.setAttribute createElement Element.toNode
  by_cases hs : skill = "" <;> simp [Node.textContent, textContentList, hs]

theorem headingTexts_skillGroups (cats : List (String × List String)) :
    headingTexts (cats.map (fun c => (skillGroup c.1 c.2).toNode)) = cats.map Prod.fst := by
  unfold headingTexts
  induction cats with
  | nil => rfl
  | cons c cs ih =>
    simp only [List.map_cons, List.filterMap_cons, ih]
    rw [skillGroup_toNode]
    simp [Node.children, textContent_textElement]

theorem nonEmptyCategories_labels (skills : SkillGroups) :
    ("Languages" ∉ (nonEmptyCategories skills).map Prod.fst
        ↔ (skills.languages = none ∨ skills.languages = some [])) ∧
    ("Developer Tools" ∉ (nonEmptyCategories skills).map Prod.fst
        ↔ (skills.developerTools = none ∨ skills.developerTools = some [])) ∧
    ("Spoken Languages" ∉ (nonEmptyCategories skills).map Prod.fst
        ↔ (skills.spokenLanguages = none ∨ skills.spokenLanguages = some [])) := by
  unfold nonEmptyCategories
  rcases skills.languages with _ | _ | ⟨a, as⟩ <;>
    rcases skills.developerTools with _ | _ | ⟨b, bs⟩ <;>
    rcases skills.spokenLanguages with _ | _ | ⟨c, cs⟩ <;>
    simp

/-- C3: when the skills container exists, `renderSkills` leaves in it exactly one group per
category with a non-empty sequence, in the order languages, developerTools,
spokenLanguages; each group is a heading `h3` with the category label followed by a
non-empty tag container holding one `span` per skill in input order; a category is
omitted iff its sequence is absent or empty. -/
theorem renderSkills_groups (skills : Option SkillGroups) (dom : Dom) (groups : Element)
    (h : dom.skillsGroups = some groups) :
    ∃ rendered : List Node,
      (renderSkills skills dom).skillsGroups = some { groups with children := rendered } ∧
      List.Forall₂
        (fun (cat : String × List String) (g : Node) =>
          ∃ heading tags, g.children = [heading, tags] ∧
            heading.tag? = some "h3" ∧ heading.textContent = cat.1 ∧
            tags.children ≠ [] ∧
            List.Forall₂
              (fun (skill : String) (tag : Node) =>
                tag.tag? = some "span" ∧ tag.textContent = skill)
              cat.2 tags.children)
        (nonEmptyCategories (skills.getD {})) rendered ∧
      ("Languages" ∉ headingTexts rendered
        ↔ ((skills.getD {}).languages = none ∨ (skills.getD {}).languages = some [])) ∧
      ("Developer Tools" ∉ headingTexts rendered
        ↔ ((skills.getD {}).developerTools = none ∨
            (skills.getD {}).developerTools = some [])) ∧
      ("Spoken Languages" ∉ headingTexts rendered
        ↔ ((skills.getD {}).spokenLanguages = none ∨
            (skills.getD {}).spokenLanguages = some [])) := by
  refine ⟨_, renderSkills_children skills dom groups h, ?_, ?_⟩
  · rw [List.forall₂_map_right_iff]
    apply List.forall₂_same.mpr
    intro cat hcat
    rw [skillGroup_toNode]
    refine ⟨_, _, rfl, rfl, textContent_textElement _ _, ?_, ?_⟩
    · have hne : cat.2 ≠ [] := by
        unfold nonEmptyCategories at hcat
        rcases List.mem_filterMap.mp hcat with ⟨e, _, he⟩
        rcases e with ⟨l, _ | _ | ⟨x, xs⟩⟩ <;> simp at he
        rw [← he]
        simp
      simpa [Node.children] using hne
    · simp only [Node.children]
      rw [List.forall₂_map_right_iff]
      apply List.forall₂_same.mpr
      intro skill _
      exact ⟨rfl, textContent_skillTag skill⟩
  · rw [headingTexts_skillGroups]
    exact nonEmptyCategories_labels _

theorem renderSkills_groups_witness :
    ∃ rendered : List Node,
      (renderSkills (some { languages := some ["Go", "Lean"], developerTools := some [] })
          skeleton).skillsGroups = some { createElement "div" with children := rendered } ∧
      List.Forall₂
        (fun (cat : String × List String) (g : Node) =>
          ∃ heading tags, g.children = [heading, tags] ∧
            heading.tag? = some "h3" ∧ heading.textContent = cat.1 ∧
            tags.children ≠ [] ∧
            List.Forall₂
              (fun (skill : String) (tag : Node) =>
                tag.tag? = some "span" ∧ tag.textContent = skill)
              cat.2 tags.children)
        [("Languages", ["Go", "Lean"])] rendered ∧
      ("Languages" ∉ headingTexts rendered
        ↔ ((some ["Go", "Lean"] : Option (List String)) = none ∨
            (some ["Go", "Lean"] : Option (List String)) = some [])) ∧
      ("Developer Tools" ∉ headingTexts rendered
        ↔ ((some [] : Option (List String)) = none ∨
            (some [] : Option (List String)) = some [])) ∧
      ("Spoken Languages" ∉ headingTexts rendered
        ↔ ((none : Option (List String)) = none ∨ (none : Option (List String)) = some [])) :=
  renderSkills_groups (some { languages := some ["Go", "Lean"], developerTools := some [] })
    skeleton (createElement "div") rfl

/-! ## Hero -/

theorem renderHero_done (data : ContentDocument) (dom : Dom) (tagline name summary links : Element)
    (h1 : dom.heroTagline = some tagline) (h2 : dom.heroName = some name)
    (h3 : dom.heroSummary = some summary) (h4 : dom.heroLinks = some links) :
    renderHero data dom = .done
      { dom with
        heroTagline := some (tagline.setTextContent TAGLINE)
        heroName := some (name.setTextContent ("Hi, I'm " ++ data.name ++ "."))
        heroSummary := some (summary.setTextContent (heroSummaryText data))
        heroLinks := some { links with
          children := (contactLinks data.contact).map (fun l => (contactAnchor l).toNode) }
        heroFooterName := dom.heroFooterName.map (fun f => f.setTextContent data.name) } := by
  obtain ⟨n, t, sm, l, f, p, e, ed, sk⟩ := dom
  simp only at h1 h2 h3 h4
  subst h1 h2 h3 h4
  unfold renderHero
  cases f <;> simp [foldl_appendChild, Element.clearInnerHTML]

theorem contactLinks_eq_expectedChannels (contact : Option ContactInfo) :
    contactLinks contact = expectedChannels contact := by
  have hm : ∀ e : String, ¬ ("mailto:" ++ e = "") :=
    fun e => append_ne_empty_left _ _ (by decide)
  unfold contactLinks contactCandidates expectedChannels
  rcases (contact.bind (·.github)) with _ | g <;>
    rcases (contact.bind (·.linkedin)) with _ | l <;>
    rcases (contact.bind (·.email)) with _ | e
  all_goals try (by_cases hg : g = "")
  all_goals try (by_cases hl : l = "")
  all_goals try (by_cases he : e = "")
  all_goals simp_all [truthy, nonEmpty, Option.filter]

theorem contactAnchor_toNode (link : String × String) :
    (contactAnchor link).toNode
      = .elem "a"
          [ ("href", link.2),
            ("target", if startsWith link.2 "http" then "_blank" else "_self"),
            ("rel", if startsWith link.2 "http" then "noopener" else "") ]
          (if link.1 = "" then [] else [.text link.1]) := by
  simp [contactAnchor, Element.toNode, Element.setAttribute, Element.setTextContent,
    createElement, setAttr]

theorem textContent_contactAnchor (link : String × String) :
    (contactAnchor link).toNode.textContent = link.1 := by
  rw [contactAnchor_toNode]
  by_cases h : link.1 = "" <;> simp [Node.textContent, textContentList, h]

/-- C4: when the hero mount points exist, `renderHero` completes and leaves in the links
container exactly one anchor per contact channel with a non-empty value, in the order
github, linkedin, email, labelled `GitHub`, `LinkedIn`, `Email`; the github and linkedin
anchors carry the value as `href`, the email anchor `mailto:` followed by the value; a
channel that is absent or empty gets no anchor. -/
theorem renderHero_contact_anchors (data : ContentDocument) (dom : Dom)
    (tagline name summary links : Element)
    (h1 : dom.heroTagline = some tagline) (h2 : dom.heroName = some name)
    (h3 : dom.heroSummary = some summary) (h4 : dom.heroLinks = some links) :
    ∃ (dom1 : Dom) (anchors : List Node),
      renderHero data dom = .done dom1 ∧
      dom1.heroLinks = some { links with children := anchors } ∧
      List.Forall₂
        (fun (channel : String × String) (a : Node) =>
          a.tag? = some "a" ∧ a.attr? "href" = some channel.2 ∧ a.textContent = channel.1)
        (expectedChannels data.contact) anchors := by
  refine ⟨_, _, renderHero_done data dom tagline name summary links h1 h2 h3 h4, rfl, ?_⟩
  rw [List.forall₂_map_right_iff, contactLinks_eq_expectedChannels]
  apply List.forall₂_same.mpr
  intro channel _
  refine ⟨?_, ?_, textContent_contactAnchor channel⟩ <;>
    rw [contactAnchor_toNode] <;> simp [Node.tag?, Node.attr?, getAttr, List.find?]

theorem renderHero_contact_anchors_witness :
    ∃ (dom1 : Dom) (anchors : List Node),
      renderHero
        { name := "Ava",
          contact := some { github := some "https://github.com/x", email := some "a@b.com" } }
        skeleton = .done dom1 ∧
      dom1.heroLinks = some { createElement "div" with children := anchors } ∧
      List.Forall₂
        (fun (channel : String × String) (a : Node) =>
          a.tag? = some "a" ∧ a.attr? "href" = some channel.2 ∧ a.textContent = channel.1)
        [("GitHub", "https://github.com/x"), ("Email", "mailto:a@b.com")] anchors :=
  renderHero_contact_anchors
    { name := "Ava",
      contact := some { github := some "https://github.com/x", email := some "a@b.com" } }
    skeleton (createElement "p") (createElement "h1") (createElement "p") (createElement "div")
    rfl rfl rfl rfl

/-- C5 (counterexample): with github `httpdocs/index.html` and email `a@b.com`, the github
anchor has a relative URI yet target `_blank` and rel `noopener`, and the email anchor has
the absolute URI `mailto:a@b.com` yet target `_self` and an empty rel. -/
theorem hero_anchor_target_not_by_absoluteness :
    ∃ a b,
      heroAnchors
        { name := "Ava",
          contact := some { github := some "httpdocs/index.html", email := some "a@b.com" } }
        skeleton = [a, b] ∧
      a.attr? "href" = some "httpdocs/index.html" ∧
      isAbsoluteURI "httpdocs/index.html" = false ∧
      a.attr? "target" = some "_blank" ∧ a.attr? "rel" = some "noopener" ∧
      b.attr? "href" = some "mailto:a@b.com" ∧
      isAbsoluteURI "mailto:a@b.com" = true ∧
      b.attr? "target" = some "_self" ∧ b.attr? "rel" = some "" := by
  refine ⟨_, _, rfl, ?_⟩
  decide

/-- C5 (amended): when the hero mount points exist, every anchor of the links container has
target `_blank` and rel `noopener` if its `href` starts with `http`, and target `_self`
and an empty rel otherwise. -/
theorem renderHero_anchor_target_rel (data : ContentDocument) (dom : Dom)
    (tagline name summary links : Element)
    (h1 : dom.heroTagline = some tagline) (h2 : dom.heroName = some name)
    (h3 : dom.heroSummary = some summary) (h4 : dom.heroLinks = some links) :
    ∀ a ∈ heroAnchors data dom, ∃ uri,
      a.attr? "href" = some uri ∧
      a.attr? "target" = some (if startsWith uri "http" then "_blank" else "_self") ∧
      a.attr? "rel" = some (if startsWith uri "http" then "noopener" else "") := by
  intro a ha
  unfold heroAnchors at ha
  rw [renderHero_done data dom tagline name summary links h1 h2 h3 h4] at ha
  simp only [Outcome.dom, Option.map_some', Option.getD_some, List.mem_map] at ha
  obtain ⟨link, _, rfl⟩ := ha
  refine ⟨link.2, ?_⟩
  rw [contactAnchor_toNode]
  simp [Node.attr?, getAttr, List.find?]

theorem renderHero_anchor_target_rel_witness :
    ∃ uri,
      (Node.elem "a" [("href", "mailto:a@b.com"), ("target", "_self"), ("rel", "")]
          [.text "Email"]).attr? "href" = some uri ∧
      (Node.elem "a" [("href", "mailto:a@b.com"), ("target", "_self"), ("rel", "")]
          [.text "Email"]).attr? "target"
        = some (if startsWith uri "http" then "_blank" else "_self") ∧
      (Node.elem "a" [("href", "mailto:a@b.com"), ("target", "_self"), ("rel", "")]
          [.text "Email"]).attr? "rel"
        = some (if startsWith uri "http" then "noopener" else "") :=
  renderHero_anchor_target_rel
    { name := "Ava", contact := some { email := some "a@b.com" } }
    skeleton (createElement "p") (createElement "h1") (createElement "p") (createElement "div")
    rfl rfl rfl rfl _ (List.Mem.head _)

/-! ## Composed lines -/

theorem filterBoolean_eq (xs : List (Option String)) :
    filterBoolean xs = xs.filterMap nonEmpty := by
  unfold filterBoolean
  congr 1
  funext x
  rcases x with _ | v
  · rfl
  · by_cases h : v = "" <;> simp [truthy, nonEmpty, Option.filter, h]

theorem mem_filterMap_nonEmpty (xs : List (Option String)) (v : String)
    (h : v ∈ xs.filterMap nonEmpty) : v ≠ "" := by
  rcases List.mem_filterMap.mp h with ⟨c, _, hc⟩
  rcases c with _ | c
  · simp [nonEmpty] at hc
  · rw [nonEmpty_some] at hc
    by_cases he : c = ""
    · simp [he] at hc
    · simp only [if_neg he, Option.some.injEq] at hc
      exact hc ▸ he

theorem join_cons_ne_empty (sep a : String) (rest : List String) (h : a ≠ "") :
    join sep (a :: rest) ≠ "" := by
  cases rest with
  | nil => simpa [join] using h
  | cons b rest =>
    simp only [join]
    rw [String.append_assoc]
    exact append_ne_empty_left _ _ h

/-- The guard `if (text)` on a joined line keeps exactly the composed line. -/
theorem guarded_join_eq_composeLine (sep : String) (inputs : List (Option String)) :
    (if join sep (filterBoolean inputs) ≠ "" then [join sep (filterBoolean inputs)] else [])
      = (composeLine sep inputs).toList := by
  rw [filterBoolean_eq]
  unfold composeLine
  rcases hp : inputs.filterMap nonEmpty with _ | ⟨a, rest⟩
  · simp [join]
  · have ha : a ≠ "" := mem_filterMap_nonEmpty inputs a (by rw [hp]; exact List.mem_cons_self _ _)
    simp [join_cons_ne_empty sep a rest ha]

theorem composeLine_ne_empty (sep : String) (inputs : List (Option String)) (text : String)
    (h : text ∈ (composeLine sep inputs).toList) : text ≠ "" := by
  unfold composeLine at h
  rcases hp : inputs.filterMap nonEmpty with _ | ⟨a, rest⟩
  · simp [hp] at h
  · have ha : a ≠ "" := mem_filterMap_nonEmpty inputs a (by rw [hp]; exact List.mem_cons_self _ _)
    simp only [hp, Option.toList, List.mem_singleton] at h
    rw [h]
    exact join_cons_ne_empty sep a rest ha

theorem stringList_tag (cls : String) (items : List String) :
    (stringList cls items).tag = "ul" := by
  unfold stringList
  rw [foldl_appendChild]
  rfl

theorem paragraphTexts_projectCard (project : Project) (contact : ContactInfo) :
    paragraphTexts (projectCard project contact).toNode
      = (composeLine " • " [project.location, project.tech.map (join " • ")]).toList := by
  rw [← guarded_join_eq_composeLine, projectCard_toNode]
  have h1 := stringList_tag "project-card__stack" (project.tech.getD [])
  have h2 := stringList_tag "project-card__details" (project.description.getD [])
  have hm : projectMetaText project
      = join " • " (filterBoolean [project.location, project.tech.map (join " • ")]) := rfl
  rw [← hm]
  unfold paragraphTexts projectCardMiddle
  by_cases c1 : projectMetaText project = "" <;>
  by_cases c2 : (project.tech.getD []).length = 0 <;>
  by_cases c3 : (project.description.getD []).length = 0 <;>
  simp [c1, c2, c3, h1, h2, Node.children, Node.tag?, textElement, Element.toNode,
    Element.setTextContent, createElement, Node.textContent, textContentList]

theorem textContent_paragraph (text : String) :
    ((createElement "p").setTextContent text).toNode.textContent = text :=
  textContent_textElement "p" text

theorem paragraphTexts_experienceCard (role : Role) :
    paragraphTexts (experienceCard role).toNode
      = (composeLine " • " [role.location, role.date]).toList := by
  rw [← guarded_join_eq_composeLine]
  have hm : roleMetaText role = join " • " (filterBoolean [role.location, role.date]) := rfl
  rw [← hm]
  have ht := textContent_paragraph (roleMetaText role)
  unfold paragraphTexts experienceCard
  simp only [foldl_appendChild]
  by_cases c1 : roleMetaText role = ""
  · simp [c1, Node.children, Node.tag?, Element.toNode, Element.appendChild, Element.prepend,
      Element.setAttribute, Element.setTextContent, createElement]
  · simp only [Element.toNode, Element.setTextContent, createElement, if_neg c1] at ht
    simp [c1, ht, Node.children, Node.tag?, Element.toNode, Element.appendChild,
      Element.prepend, Element.setAttribute, Element.setTextContent, createElement]

theorem labelled_eq (label : String) (x : Option String) :
    labelled label x = (nonEmpty x).map (fun v => label ++ v) := by
  rcases x with _ | v
  · rfl
  · by_cases h : v = "" <;> simp [labelled, truthy, nonEmpty, Option.filter, h]

theorem degree_guard_iff (entry : Institution) :
    truthy (jsOr entry.degree entry.minor) = true ↔ degreeText entry ≠ "" := by
  unfold degreeText
  rw [filterBoolean_eq, labelled_eq]
  rcases entry.degree with _ | d <;> rcases entry.minor with _ | m
  all_goals try (by_cases hd : d = "")
  all_goals try (by_cases hm : m = "")
  all_goals simp_all [jsOr, truthy, nonEmpty, Option.filter, join]
  all_goals first
    | exact append_ne_empty_left _ _ (by decide)
    | (rw [String.append_assoc]; exact append_ne_empty_left _ _ hd)

theorem paragraphTexts_educationCard (entry : Institution) :
    paragraphTexts (educationCard entry).toNode
      = (composeLine " · "
            [entry.degree, (nonEmpty entry.minor).map (fun m => "Minor in " ++ m)]).toList ++
        (composeLine " • "
            [ entry.location,
              (nonEmpty entry.expectedGraduation).map (fun g => "Grad " ++ g),
              (nonEmpty entry.gpa).map (fun g => "GPA " ++ g) ]).toList := by
  rw [← labelled_eq, ← labelled_eq, ← labelled_eq, ← guarded_join_eq_composeLine,
    ← guarded_join_eq_composeLine]
  have hd : degreeText entry
      = join " · " (filterBoolean [entry.degree, labelled "Minor in " entry.minor]) := rfl
  have hm : educationMetaText entry
      = join " • " (filterBoolean [entry.location, labelled "Grad " entry.expectedGraduation,
          labelled "GPA " entry.gpa]) := rfl
  rw [← hd, ← hm]
  have hg := degree_guard_iff entry
  have t1 := textContent_paragraph (degreeText entry)
  have t2 := textContent_paragraph (educationMetaText entry)
  unfold paragraphTexts educationCard
  by_cases c1 : degreeText entry = "" <;> by_cases c2 : educationMetaText entry = ""
  all_goals
    have hg2 := hg
    simp only [c1, ne_eq, not_true_eq_false, not_false_eq_true, iff_false, iff_true,
      Bool.not_eq_true] at hg2
    simp only [Element.toNode, Element.setTextContent, createElement, c1, c2, if_true,
      if_false] at t1 t2
    simp [c1, c2, hg2, t1, t2, Node.children, Node.tag?, Element.toNode, Element.appendChild,
      Element.setAttribute, Element.setTextContent, createElement]

theorem filterMap_nonEmpty_map_some (xs : List String) (h : ∀ t ∈ xs, t ≠ "") :
    (xs.map some).filterMap nonEmpty = xs := by
  induction xs with
  | nil => rfl
  | cons x xs ih =>
    have hx : x ≠ "" := h x (List.mem_cons_self _ _)
    have hxs : ∀ t ∈ xs, t ≠ "" := fun t ht => h t (List.mem_cons_of_mem _ ht)
    simp [nonEmpty_some, hx, ih hxs]

/-- Joining location with the joined tech entries is joining location with each tech entry,
as long as no tech entry is empty. -/
theorem composeLine_tech_flat (sep : String) (location : Option String)
    (tech : Option (List String)) (h : ∀ t ∈ tech.getD [], t ≠ "") :
    composeLine sep [location, tech.map (join sep)]
      = composeLine sep (location :: (tech.getD []).map some) := by
  unfold composeLine
  have hn : nonEmpty none = none := rfl
  have he : nonEmpty (some "") = none := by rw [nonEmpty_some, if_pos rfl]
  rcases tech with _ | _ | ⟨b, rest⟩
  · simp only [Option.map_none', Option.getD_none, List.map_nil, List.filterMap_cons,
      List.filterMap_nil, hn]
  · simp only [Option.map_some', Option.getD_some, List.map_nil, List.filterMap_cons,
      List.filterMap_nil, join, he]
  · have hb : b ≠ "" := h b (by simp)
    have hj : join sep (b :: rest) ≠ "" := join_cons_ne_empty sep b rest hb
    have hf := filterMap_nonEmpty_map_some (b :: rest) (by simpa using h)
    simp only [Option.getD_some, Option.map_some', List.filterMap_cons, List.filterMap_nil,
      nonEmpty_some, if_neg hj]
    rw [hf]
    rcases nonEmpty location with _ | l <;> simp [join]

/-- C7 (counterexample): a project whose tech sequence is two empty strings gets a meta line
whose text is the separator alone, where the join of the non-empty inputs would be omitted. -/
theorem project_meta_separator_only :
    paragraphTexts (projectCard { name := "P", tech := some ["", ""] } {}).toNode = [" • "] ∧
    composeLine " • " [none, some "", some ""] = none := by
  constructor <;> decide

/-- C7 (amended): every composed line that is rendered has a non-empty text. The experience
meta, the education degree line and the education meta are the non-empty inputs joined,
separator between present values only. The project meta joins location with the tech
entries joined as given; when no tech entry is empty it is the non-empty values among
location and the tech entries joined. -/
theorem composed_lines (project : Project) (contact : ContactInfo) (role : Role)
    (entry : Institution) :
    paragraphTexts (projectCard project contact).toNode
      = (composeLine " • " [project.location, project.tech.map (join " • ")]).toList ∧
    ((∀ t ∈ project.tech.getD [], t ≠ "") →
      paragraphTexts (projectCard project contact).toNode
        = (composeLine " • " (project.location :: (project.tech.getD []).map some)).toList) ∧
    paragraphTexts (experienceCard role).toNode
      = (composeLine " • " [role.location, role.date]).toList ∧
    paragraphTexts (educationCard entry).toNode
      = (composeLine " · "
            [entry.degree, (nonEmpty entry.minor).map (fun m => "Minor in " ++ m)]).toList ++
        (composeLine " • "
            [ entry.location,
              (nonEmpty entry.expectedGraduation).map (fun g => "Grad " ++ g),
              (nonEmpty entry.gpa).map (fun g => "GPA " ++ g) ]).toList ∧
    (∀ text ∈ paragraphTexts (projectCard project contact).toNode ++
        paragraphTexts (experienceCard role).toNode ++
        paragraphTexts (educationCard entry).toNode, text ≠ "") := by
  refine ⟨paragraphTexts_projectCard _ _, ?_, paragraphTexts_experienceCard _,
    paragraphTexts_educationCard _, ?_⟩
  · intro h
    rw [paragraphTexts_projectCard, composeLine_tech_flat _ _ _ h]
  · intro text ht
    rw [paragraphTexts_projectCard, paragraphTexts_experienceCard,
      paragraphTexts_educationCard] at ht
    simp only [List.mem_append] at ht
    rcases ht with ((ht | ht) | (ht | ht)) <;> exact composeLine_ne_empty _ _ _ ht

theorem composed_lines_witness :
    paragraphTexts
        (projectCard { name := "P", location := some "NYC", tech := some ["Go", "Lean"] }
          {}).toNode = ["NYC • Go • Lean"] :=
  ((composed_lines { name := "P", location := some "NYC", tech := some ["Go", "Lean"] } {}
      {} { school := "X" }).2.1 (by decide)).trans (by decide)

/-! ## The full render pass -/

theorem renderProjects_eq (projects : Option (List Project)) (contact : Option ContactInfo)
    (dom : Dom) :
    renderProjects projects contact dom
      = { dom with
          projectsGrid := (dom.projectsGrid.map (fun g => g.withChildren
            ((projects.getD []).map (fun p => (projectCard p (contact.getD {})).toNode)))) } := by
  obtain ⟨n, t, sm, l, f, p, e, ed, sk⟩ := dom
  cases p <;>
    simp [renderProjects, foldl_appendChild, Element.clearInnerHTML, Element.withChildren]

theorem renderExperience_eq (experience : Option (List Role)) (dom : Dom) :
    renderExperience experience dom
      = { dom with
          experienceList := (dom.experienceList.map (fun g => g.withChildren
            ((experience.getD []).map (fun r => (experienceCard r).toNode)))) } := by
  obtain ⟨n, t, sm, l, f, p, e, ed, sk⟩ := dom
  cases e <;>
    simp [renderExperience, foldl_appendChild, Element.clearInnerHTML, Element.withChildren]

theorem renderEducation_eq (education : Option (List Institution)) (dom : Dom) :
    renderEducation education dom
      = { dom with
          educationCards := (dom.educationCards.map (fun g => g.withChildren
            ((education.getD []).map (fun e => (educationCard e).toNode)))) } := by
  obtain ⟨n, t, sm, l, f, p, e, ed, sk⟩ := dom
  cases ed <;>
    simp [renderEducation, foldl_appendChild, Element.clearInnerHTML, Element.withChildren]

theorem renderSkills_eq (skills : Option SkillGroups) (dom : Dom) :
    renderSkills skills dom
      = { dom with
          skillsGroups := (dom.skillsGroups.map (fun g => g.withChildren
            ((nonEmptyCategories (skills.getD {})).map
              (fun c => (skillGroup c.1 c.2).toNode)))) } := by
  obtain ⟨n, t, sm, l, f, p, e, ed, sk⟩ := dom
  rcases sk with _ | g
  · simp [renderSkills]
  · have hs := renderSkills_children skills ⟨n, t, sm, l, f, p, e, ed, some g⟩ g rfl
    have hrest : renderSkills skills ⟨n, t, sm, l, f, p, e, ed, some g⟩
        = ⟨n, t, sm, l, f, p, e, ed,
            (renderSkills skills ⟨n, t, sm, l, f, p, e, ed, some g⟩).skillsGroups⟩ := by
      simp [renderSkills]
    rw [hrest, hs]
    simp [Element.withChildren]

theorem renderAll_eq (data : ContentDocument) (dom : Dom) :
    renderAll data dom =
      match renderHero data dom with
      | .threw d => .threw d
      | .done d =>
        .done (renderSkills data.skills (renderEducation data.education
          (renderExperience data.experience (renderProjects data.projects data.contact d)))) := by
  unfold renderAll renderPass call Step.andThen sourceRenderers
  rcases h : renderHero data dom with d | d <;> simp [h]

theorem setTextContent_eq (e : Element) (text : String) :
    e.setTextContent text = e.withChildren (textNodes text) := rfl

theorem renderHero_eq_renderedPage (data : ContentDocument) (dom : Dom)
    (tagline name summary links : Element)
    (h1 : dom.heroTagline = some tagline) (h2 : dom.heroName = some name)
    (h3 : dom.heroSummary = some summary) (h4 : dom.heroLinks = some links) :
    renderAll data dom = .done (renderedPage data dom) := by
  rw [renderAll_eq, renderHero_done data dom tagline name summary links h1 h2 h3 h4]
  simp only [renderSkills_eq, renderEducation_eq, renderExperience_eq, renderProjects_eq]
  obtain ⟨n, t, sm, l, f, p, e, ed, sk⟩ := dom
  simp only at h1 h2 h3 h4
  subst h1 h2 h3 h4
  simp [renderedPage, setTextContent_eq, Element.withChildren]

theorem renderAll_done_mounts (data : ContentDocument) (dom d1 : Dom)
    (h : renderAll data dom = .done d1) :
    ∃ tagline name summary links, dom.heroTagline = some tagline ∧ dom.heroName = some name ∧
      dom.heroSummary = some summary ∧ dom.heroLinks = some links := by
  rw [renderAll_eq] at h
  obtain ⟨n, t, sm, l, f, p, e, ed, sk⟩ := dom
  rcases t with _ | t
  · simp [renderHero] at h
  rcases n with _ | n
  · simp [renderHero] at h
  rcases sm with _ | sm
  · simp [renderHero] at h
  rcases l with _ | l
  · simp [renderHero] at h
  exact ⟨t, n, sm, l, rfl, rfl, rfl, rfl⟩

theorem contact_bind_getD (contact : Option ContactInfo) :
    contact.bind (·.github) = (contact.getD {}).github ∧
    contact.bind (·.linkedin) = (contact.getD {}).linkedin ∧
    contact.bind (·.email) = (contact.getD {}).email := by
  cases contact <;> exact ⟨rfl, rfl, rfl⟩

theorem contactLinks_congr (c1 c2 : Option ContactInfo) (h : c1.getD {} = c2.getD {}) :
    contactLinks c1 = contactLinks c2 := by
  unfold contactLinks contactCandidates
  obtain ⟨a1, a2, a3⟩ := contact_bind_getD c1
  obtain ⟨b1, b2, b3⟩ := contact_bind_getD c2
  rw [a1, a2, a3, b1, b2, b3, h]

theorem heroSummaryText_congr (data1 data2 : ContentDocument)
    (hp : data1.projects.getD [] = data2.projects.getD [])
    (he : data1.experience.getD [] = data2.experience.getD [])
    (hed : data1.education.getD [] = data2.education.getD []) :
    heroSummaryText data1 = heroSummaryText data2 := by
  have e1 : ∀ x : Option (List Institution), x.bind (·.head?) = (x.getD []).head? := by
    intro x; cases x <;> rfl
  have e2 : ∀ x : Option (List Project), (x.map List.length).getD 0 = (x.getD []).length := by
    intro x; cases x <;> rfl
  have e3 : ∀ x : Option (List Role), (x.map List.length).getD 0 = (x.getD []).length := by
    intro x; cases x <;> rfl
  unfold heroSummaryText
  simp only [e1, e2, e3, hp, he, hed]

theorem renderedPage_congr (data1 data2 : ContentDocument) (dom : Dom)
    (hn : data1.name = data2.name)
    (hc : data1.contact.getD {} = data2.contact.getD {})
    (hp : data1.projects.getD [] = data2.projects.getD [])
    (he : data1.experience.getD [] = data2.experience.getD [])
    (hed : data1.education.getD [] = data2.education.getD [])
    (hs : data1.skills.getD {} = data2.skills.getD {}) :
    renderedPage data1 dom = renderedPage data2 dom := by
  unfold renderedPage
  rw [heroSummaryText_congr data1 data2 hp he hed, contactLinks_congr _ _ hc, hn, hc, hp, he,
    hed, hs]

/-- C8: when the hero mount points exist, the full render pass completes for every document,
and a document whose collections (or contact) are absent is rendered exactly as the
document that holds the empty collection instead: the pass only looks at `getD` of
each. An absent collection leaves its container empty, and with no project, role or
institution the summary uses the lexical fallbacks for the counts and the location. -/
theorem renderAll_absent_as_empty (data data0 : ContentDocument) (dom : Dom)
    (tagline name summary links : Element)
    (h1 : dom.heroTagline = some tagline) (h2 : dom.heroName = some name)
    (h3 : dom.heroSummary = some summary) (h4 : dom.heroLinks = some links)
    (hn : data0.name = data.name)
    (hc : data0.contact.getD {} = data.contact.getD {})
    (hp : data0.projects.getD [] = data.projects.getD [])
    (he : data0.experience.getD [] = data.experience.getD [])
    (hed : data0.education.getD [] = data.education.getD [])
    (hs : data0.skills.getD {} = data.skills.getD {}) :
    ∃ dom1, renderAll data dom = .done dom1 ∧ renderAll data0 dom = .done dom1 ∧
      (data.projects = none → dom1.projectsGrid = dom.projectsGrid.map (·.withChildren [])) ∧
      (data.experience = none →
        dom1.experienceList = dom.experienceList.map (·.withChildren [])) ∧
      (data.education = none →
        dom1.educationCards = dom.educationCards.map (·.withChildren [])) ∧
      (data.skills = none → dom1.skillsGroups = dom.skillsGroups.map (·.withChildren [])) ∧
      (data.projects = none → data.experience = none → data.education = none →
        dom1.heroSummary = some (summary.withChildren
          [.text ("Based in New York, NY, I merge artistic curiosity with rigorous systems " ++
            "thinking across multi-disciplinary experiences and countless experiments.")])) := by
  refine ⟨renderedPage data dom,
    renderHero_eq_renderedPage data dom tagline name summary links h1 h2 h3 h4, ?_, ?_, ?_, ?_,
    ?_, ?_⟩
  · rw [renderHero_eq_renderedPage data0 dom tagline name summary links h1 h2 h3 h4,
      renderedPage_congr data0 data dom hn hc hp he hed hs]
  · intro h; simp [renderedPage, h]
  · intro h; simp [renderedPage, h]
  · intro h; simp [renderedPage, h]
  · intro h; simp [renderedPage, h, nonEmptyCategories]
  · intro hp0 he0 hed0
    simp only [renderedPage, h3, Option.map_some']
    have : heroSummaryText data
        = "Based in New York, NY, I merge artistic curiosity with rigorous systems " ++
            "thinking across multi-disciplinary experiences and countless experiments." := by
      unfold heroSummaryText
      rw [hp0, he0, hed0]
      decide
    rw [this]
    rfl

theorem renderAll_absent_as_empty_witness :
    ∃ dom1, renderAll { name := "Ava" } skeleton = .done dom1 ∧
      renderAll
        { name := "Ava", contact := some {}, projects := some [], experience := some [],
          education := some [], skills := some {} } skeleton = .done dom1 ∧
      (({ name := "Ava" } : ContentDocument).projects = none →
        dom1.projectsGrid = skeleton.projectsGrid.map (·.withChildren [])) ∧
      (({ name := "Ava" } : ContentDocument).experience = none →
        dom1.experienceList = skeleton.experienceList.map (·.withChildren [])) ∧
      (({ name := "Ava" } : ContentDocument).education = none →
        dom1.educationCards = skeleton.educationCards.map (·.withChildren [])) ∧
      (({ name := "Ava" } : ContentDocument).skills = none →
        dom1.skillsGroups = skeleton.skillsGroups.map (·.withChildren [])) ∧
      (({ name := "Ava" } : ContentDocument).projects = none →
        ({ name := "Ava" } : ContentDocument).experience = none →
        ({ name := "Ava" } : ContentDocument).education = none →
        dom1.heroSummary = some ((createElement "p").withChildren
          [.text ("Based in New York, NY, I merge artistic curiosity with rigorous systems " ++
            "thinking across multi-disciplinary experiences and countless experiments.")])) :=
  renderAll_absent_as_empty { name := "Ava" }
    { name := "Ava", contact := some {}, projects := some [], experience := some [],
      education := some [], skills := some {} }
    skeleton (createElement "p") (createElement "h1") (createElement "p") (createElement "div")
    rfl rfl rfl rfl rfl rfl rfl rfl rfl rfl

theorem withChildren_withChildren (e : Element) (cs ds : List Node) :
    (e.withChildren cs).withChildren ds = e.withChildren ds := rfl

theorem map_withChildren_idem (x : Option Element) (cs : List Node) :
    (x.map (·.withChildren cs)).map (·.withChildren cs) = x.map (·.withChildren cs) := by
  cases x <;> rfl

theorem map_withChildren_congr (x y : Option Element) (cs : List Node)
    (h : x.map (·.withChildren []) = y.map (·.withChildren [])) :
    x.map (·.withChildren cs) = y.map (·.withChildren cs) := by
  have hx : ∀ z : Option Element,
      z.map (·.withChildren cs) = (z.map (·.withChildren [])).map (·.withChildren cs) := by
    intro z; cases z <;> rfl
  rw [hx x, hx y, h]

theorem renderedPage_idem (data : ContentDocument) (dom : Dom) :
    renderedPage data (renderedPage data dom) = renderedPage data dom := by
  unfold renderedPage
  simp only [map_withChildren_idem]

theorem renderedPage_shell (data : ContentDocument) (dom dom2 : Dom)
    (h : dom2.shell = dom.shell) : renderedPage data dom2 = renderedPage data dom := by
  unfold Dom.shell at h
  simp only [Dom.mk.injEq] at h
  obtain ⟨a1, a2, a3, a4, a5, a6, a7, a8, a9⟩ := h
  unfold renderedPage
  rw [map_withChildren_congr _ _ _ a1, map_withChildren_congr _ _ _ a2,
    map_withChildren_congr _ _ _ a3, map_withChildren_congr _ _ _ a4,
    map_withChildren_congr _ _ _ a5, map_withChildren_congr _ _ _ a6,
    map_withChildren_congr _ _ _ a7, map_withChildren_congr _ _ _ a8,
    map_withChildren_congr _ _ _ a9]

theorem shell_mount_some (x y : Option Element) (e : Element)
    (h : y.map (·.withChildren []) = x.map (·.withChildren [])) (hx : x = some e) :
    ∃ e2, y = some e2 := by
  subst hx
  cases y with
  | none => simp at h
  | some e2 => exact ⟨e2, rfl⟩

/-- C9: when the full render pass completes on a page, running it again on the result with
the same document leaves exactly the same page (no node is duplicated), and the result is
the same from any page that has the same mount points whatever their containers held. -/
theorem renderAll_idempotent (data : ContentDocument) (dom dom1 : Dom)
    (h : renderAll data dom = .done dom1) :
    renderAll data dom1 = .done dom1 ∧
    (∀ dom2 : Dom, dom2.shell = dom.shell → renderAll data dom2 = .done dom1) := by
  obtain ⟨tagline, name, summary, links, h1, h2, h3, h4⟩ := renderAll_done_mounts data dom dom1 h
  have hd : dom1 = renderedPage data dom := by
    rw [renderHero_eq_renderedPage data dom tagline name summary links h1 h2 h3 h4] at h
    exact (Outcome.done.inj h).symm
  have key : ∀ dom2 : Dom, dom2.shell = dom.shell → renderAll data dom2 = .done dom1 := by
    intro dom2 hs
    have hs2 := hs
    unfold Dom.shell at hs2
    simp only [Dom.mk.injEq] at hs2
    obtain ⟨a1, a2, a3, a4, _⟩ := hs2
    obtain ⟨t2, ht2⟩ := shell_mount_some _ _ _ a2 h1
    obtain ⟨n2, hn2⟩ := shell_mount_some _ _ _ a1 h2
    obtain ⟨s2, hs3⟩ := shell_mount_some _ _ _ a3 h3
    obtain ⟨l2, hl2⟩ := shell_mount_some _ _ _ a4 h4
    rw [renderHero_eq_renderedPage data dom2 t2 n2 s2 l2 ht2 hn2 hs3 hl2,
      renderedPage_shell data dom dom2 hs, hd]
  refine ⟨?_, key⟩
  apply key
  rw [hd]
  unfold Dom.shell renderedPage
  simp only [Dom.mk.injEq]
  refine ⟨?_, ?_, ?_, ?_, ?_, ?_, ?_, ?_, ?_⟩ <;>
    (rw [Option.map_map]; rfl)

theorem renderAll_idempotent_witness :
    renderAll sampleDocument (renderedPage sampleDocument skeleton)
      = .done (renderedPage sampleDocument skeleton) ∧
    renderAll sampleDocument stalePage = .done (renderedPage sampleDocument skeleton) :=
  have h := renderAll_idempotent sampleDocument skeleton (renderedPage sampleDocument skeleton)
    (renderHero_eq_renderedPage sampleDocument skeleton (createElement "p") (createElement "h1")
      (createElement "p") (createElement "div") rfl rfl rfl rfl)
  ⟨h.1, h.2 stalePage rfl⟩

/-! ## Orchestration -/

theorem andThen_ok (x : Step) : x.andThen Step.ok = x := by
  cases x <;> rfl

theorem renderPass_eq_runSteps (R : Renderers) (data : ContentDocument) (w : World) :
    renderPass R data w = runSteps (rendererSteps R data) w := by
  have h : runSteps [] = Step.ok := by funext w; rfl
  simp only [renderPass, rendererSteps, runSteps, h, andThen_ok]

theorem runSteps_done (steps : List (Section × (Dom → Outcome))) (w : World) (d : Dom)
    (h : chainDone steps w.dom = some d) :
    runSteps steps w
      = .ok { w with dom := d, trace := w.trace ++ steps.map (fun p => Event.invoked p.1) } := by
  induction steps generalizing w with
  | nil =>
    simp only [chainDone, Option.some.injEq] at h
    subst h
    simp [runSteps]
  | cons p rest ih =>
    obtain ⟨s, f⟩ := p
    simp only [chainDone] at h
    rcases hf : f w.dom with d1 | d1
    · rw [hf] at h
      simp only [runSteps, call, hf, Step.andThen]
      rw [ih _ h]
      simp
    · rw [hf] at h
      simp at h

theorem runSteps_threw (steps : List (Section × (Dom → Outcome))) (w : World) (k : Nat)
    (dk d1 : Dom) (s : Section) (f : Dom → Outcome)
    (h : chainDone (steps.take k) w.dom = some dk) (hk : steps[k]? = some (s, f))
    (hf : f dk = .threw d1) :
    runSteps steps w
      = .threw { w with
          dom := d1
          trace := w.trace ++ (steps.take (k + 1)).map (fun p => Event.invoked p.1) } := by
  induction steps generalizing w k with
  | nil => simp at hk
  | cons p rest ih =>
    obtain ⟨s0, f0⟩ := p
    cases k with
    | zero =>
      simp only [List.take_zero, chainDone, Option.some.injEq] at h
      simp only [List.getElem?_cons_zero, Option.some.injEq, Prod.mk.injEq] at hk
      obtain ⟨rfl, rfl⟩ := hk
      subst h
      simp [runSteps, call, hf, Step.andThen]
    | succ k =>
      simp only [List.take_succ_cons, chainDone] at h
      simp only [List.getElem?_cons_succ] at hk
      rcases hf0 : f0 w.dom with d0 | d0
      · rw [hf0] at h
        simp only [runSteps, call, hf0, Step.andThen]
        rw [ih _ k h hk]
        simp
      · rw [hf0] at h
        simp at h

theorem chain_cases (steps : List (Section × (Dom → Outcome))) (d : Dom) :
    (∃ d1, chainDone steps d = some d1) ∨
    (∃ k dk d1 s f, k < steps.length ∧ chainDone (steps.take k) d = some dk ∧
      steps[k]? = some (s, f) ∧ f dk = .threw d1) := by
  induction steps generalizing d with
  | nil => exact Or.inl ⟨d, rfl⟩
  | cons p rest ih =>
    obtain ⟨s0, f0⟩ := p
    rcases hf0 : f0 d with d0 | d0
    · rcases ih d0 with ⟨d1, h1⟩ | ⟨k, dk, d1, s, f, hk, hc, hg, hf⟩
      · exact Or.inl ⟨d1, by simp [chainDone, hf0, h1]⟩
      · refine Or.inr ⟨k + 1, dk, d1, s, f, by simpa using hk, ?_, by simpa using hg, hf⟩
        simp [chainDone, hf0, hc]
    · exact Or.inr ⟨0, d, d0, s0, f0, by simp, by simp [chainDone], by simp, hf0⟩

theorem rendererSteps_sections (R : Renderers) (data : ContentDocument) :
    (rendererSteps R data).map Prod.fst = renderOrder := rfl

theorem invoked_take (R : Renderers) (data : ContentDocument) (k : Nat) :
    ((rendererSteps R data).take k).map (fun p => Event.invoked p.1)
      = (renderOrder.take k).map Event.invoked := by
  rw [← rendererSteps_sections R data, List.map_take, List.map_take, List.map_map]
  rfl

theorem hydrateWith_threw (R : Renderers) (data : ContentDocument) (w : World) (k : Nat)
    (dk d1 : Dom) (s : Section) (f : Dom → Outcome)
    (h : chainDone ((rendererSteps R data).take k) w.dom = some dk)
    (hk : (rendererSteps R data)[k]? = some (s, f)) (hf : f dk = .threw d1) :
    hydrateWith R (.response (some data)) w
      = { dom := d1, resumeData := some data, cbData := some data,
          trace := w.trace ++ (renderOrder.take (k + 1)).map Event.invoked ++
            [Event.consoleError] } := by
  unfold hydrateWith
  simp only [renderPass_eq_runSteps]
  rw [runSteps_threw (rendererSteps R data) ⟨w.dom, some data, some data, w.trace⟩ k dk d1 s f
    h hk hf, invoked_take]
  rfl

theorem hydrateWith_done (R : Renderers) (data : ContentDocument) (w : World) (d : Dom)
    (h : chainDone (rendererSteps R data) w.dom = some d) :
    hydrateWith R (.response (some data)) w
      = { dom := d, resumeData := some data, cbData := some data,
          trace := w.trace ++ renderOrder.map Event.invoked ++ [Event.registerAnimations] } := by
  unfold hydrateWith
  simp only [renderPass_eq_runSteps]
  rw [runSteps_done (rendererSteps R data) ⟨w.dom, some data, some data, w.trace⟩ d h,
    ← rendererSteps_sections R data, List.map_map]
  rfl

theorem renderHero_threw_frame (data : ContentDocument) (dom d1 : Dom)
    (h : renderHero data dom = .threw d1) :
    d1.projectsGrid = dom.projectsGrid ∧ d1.experienceList = dom.experienceList ∧
    d1.educationCards = dom.educationCards ∧ d1.skillsGroups = dom.skillsGroups := by
  obtain ⟨n, t, sm, l, f, p, e, ed, sk⟩ := dom
  unfold renderHero at h
  rcases t with _ | t
  · simp only [Outcome.threw.injEq] at h; subst h; exact ⟨rfl, rfl, rfl, rfl⟩
  rcases n with _ | n
  · simp only [Outcome.threw.injEq] at h; subst h; exact ⟨rfl, rfl, rfl, rfl⟩
  rcases sm with _ | sm
  · simp only [Outcome.threw.injEq] at h; subst h; exact ⟨rfl, rfl, rfl, rfl⟩
  rcases l with _ | l
  · simp only [Outcome.threw.injEq] at h; subst h; exact ⟨rfl, rfl, rfl, rfl⟩
  rcases f with _ | f <;> simp at h

/-- C10: `hydrateSite` (over any five renderers) always returns. If the fetch rejects or the
body fails to parse, the page and the globals are unchanged and the only step taken is the
error log. If the first `k` renderers complete and the next one throws, the page is the one
that renderer left, the renderers invoked are exactly the first `k + 1` of Hero, Projects,
Experience, Education, Skills, and the only step after the throw is the error log. If all
five complete, each was invoked once in that order and the animations were registered.
In every case the renderers invoked form a prefix of the fixed order. With the renderers of
the script, a throw in `renderHero` leaves the four section containers unchanged. -/
theorem hydrate_fail_fast (R : Renderers) (data : ContentDocument) (w : World) :
    hydrateWith R .rejected w = { w with trace := w.trace ++ [Event.consoleError] } ∧
    hydrateWith R (.response none) w = { w with trace := w.trace ++ [Event.consoleError] } ∧
    (∀ (k : Nat) (dk d1 : Dom) (s : Section) (f : Dom → Outcome),
      chainDone ((rendererSteps R data).take k) w.dom = some dk →
      (rendererSteps R data)[k]? = some (s, f) → f dk = .threw d1 →
      hydrateWith R (.response (some data)) w
        = { dom := d1, resumeData := some data, cbData := some data,
            trace := w.trace ++ (renderOrder.take (k + 1)).map Event.invoked ++
              [Event.consoleError] }) ∧
    (∀ d, chainDone (rendererSteps R data) w.dom = some d →
      hydrateWith R (.response (some data)) w
        = { dom := d, resumeData := some data, cbData := some data,
            trace := w.trace ++ renderOrder.map Event.invoked ++
              [Event.registerAnimations] }) ∧
    (∃ invokedSections last, invokedSections <+: renderOrder ∧
      (last = Event.registerAnimations ∨ last = Event.consoleError) ∧
      (hydrateWith R (.response (some data)) w).trace
        = w.trace ++ invokedSections.map Event.invoked ++ [last]) ∧
    (∀ d1, renderHero data w.dom = .threw d1 →
      (hydrateSite (.response (some data)) w).dom.projectsGrid = w.dom.projectsGrid ∧
      (hydrateSite (.response (some data)) w).dom.experienceList = w.dom.experienceList ∧
      (hydrateSite (.response (some data)) w).dom.educationCards = w.dom.educationCards ∧
      (hydrateSite (.response (some data)) w).dom.skillsGroups = w.dom.skillsGroups) := by
  refine ⟨rfl, rfl, ?_, ?_, ?_, ?_⟩
  · intro k dk d1 s f h hk hf
    exact hydrateWith_threw R data w k dk d1 s f h hk hf
  · intro d h
    exact hydrateWith_done R data w d h
  · rcases chain_cases (rendererSteps R data) w.dom with
      ⟨d, h⟩ | ⟨k, dk, d1, s, f, _, h, hk, hf⟩
    · refine ⟨renderOrder, Event.registerAnimations, List.prefix_refl _, Or.inl rfl, ?_⟩
      rw [hydrateWith_done R data w d h]
    · refine ⟨renderOrder.take (k + 1), Event.consoleError, List.take_prefix _ _, Or.inr rfl, ?_⟩
      rw [hydrateWith_threw R data w k dk d1 s f h hk hf]
  · intro d1 h
    have hw : hydrateSite (.response (some data)) w
        = { dom := d1, resumeData := some data, cbData := some data,
            trace := w.trace ++ (renderOrder.take (0 + 1)).map Event.invoked ++
              [Event.consoleError] } :=
      hydrateWith_threw sourceRenderers data w 0 w.dom d1 .hero (renderHero data) rfl rfl h
    rw [hw]
    exact renderHero_threw_frame data w.dom d1 h

theorem hydrate_fail_fast_witness :
    hydrateSite (.response (some sampleDocument)) ⟨pageWithoutSummary, none, none, []⟩
      = { dom := (renderHero sampleDocument pageWithoutSummary).dom,
          resumeData := some sampleDocument, cbData := some sampleDocument,
          trace := [Event.invoked .hero, Event.consoleError] } ∧
    (hydrateSite (.response (some sampleDocument))
        ⟨pageWithoutSummary, none, none, []⟩).dom.projectsGrid
      = pageWithoutSummary.projectsGrid :=
  have h := hydrate_fail_fast sourceRenderers sampleDocument ⟨pageWithoutSummary, none, none, []⟩
  ⟨h.2.2.1 0 pageWithoutSummary (renderHero sampleDocument pageWithoutSummary).dom .hero
      (renderHero sampleDocument) rfl rfl rfl,
    (h.2.2.2.2.2 (renderHero sampleDocument pageWithoutSummary).dom rfl).1⟩

end Portfolio
